import Mathlib

/-!
Shallow embedding of the obspy FDSN download-helper orchestrator
(`obspy/fdsn/download_helpers/download_helpers.py` and
`obspy/fdsn/download_helpers/download_status.py`) with theorems checking the
natural-language specification against the code.

Times are modelled as rationals (`UTCDateTime` arithmetic is plain seconds
arithmetic), the filesystem as an association list from path to file content,
and the provider RPC boundary (FDSN station and dataselect queries) as
explicit inputs describing what the remote calls would return or write.
Python exceptions are modelled with `Except`.
-/

namespace Obspy

/-- The status enum of download_status.py (line 42):
`Enum(["none", "needs_downloading", "downloaded", "ignore", "exists",
"download_failed", "download_rejected"])`. -/
inductive Status
  | none
  | needs_downloading
  | downloaded
  | ignore
  | exists
  | download_failed
  | download_rejected
deriving DecidableEq, Repr

/-- TimeInterval (download_status.py:307-329): temporal bounds, the
(planned) filename and the current status.  `filename = Option.none` models
Python `None` (and the `True` sentinel used for ignored intervals). -/
structure TimeInterval where
  start : ℚ
  end_ : ℚ
  filename : Option String
  status : Status
deriving DecidableEq, Repr

/-- Channel (download_status.py:254-304): a `(location, channel)` pair and
its time intervals. -/
structure Channel where
  location : String
  channel : String
  intervals : List TimeInterval
deriving DecidableEq, Repr

/-- Metadata bookkeeping maps of a Station: Python dicts from
`(location, channel)` to `(starttime, endtime)`, modelled as association
lists in insertion order. -/
abbrev InfoMap := List ((String × String) × (ℚ × ℚ))

/-- Station (download_status.py:46-100): identifiers, coordinates, channels,
the StationXML filename and the want/miss/have station-information maps. -/
structure Station where
  network : String
  station : String
  latitude : ℚ
  longitude : ℚ
  channels : List Channel
  stationxml_filename : Option String
  want_station_information : InfoMap
  miss_station_information : InfoMap
  have_station_information : InfoMap
deriving DecidableEq, Repr

/-- Restrictions (download_helpers.py:49-166).  All fields are stored by
`__init__` exactly as passed (apart from the float conversions, which are
identities in this model). -/
structure Restrictions where
  starttime : ℚ
  endtime : ℚ
  chunklength : Option ℚ
  network : Option String
  station : Option String
  location : Option String
  channel : Option String
  reject_channels_with_gaps : Bool
  minimum_length : ℚ
  channel_priorities : List String
  location_priorities : List String
  minimum_interstation_distance_in_m : ℚ
deriving DecidableEq, Repr

/-- Restrictions.__init__ (download_helpers.py:145-166).  The constructor
body only converts and stores its arguments; it contains no validation and
no raise statement, hence it always succeeds.  Fallibility of Python
constructors is modelled with `Except`. -/
def Restrictions.init (starttime endtime : ℚ) (chunklength_in_sec : Option ℚ)
    (network station location channel : Option String)
    (reject_channels_with_gaps : Bool) (minimum_length : ℚ)
    (minimum_interstation_distance_in_m : ℚ)
    (channel_priorities location_priorities : List String) :
    Except String Restrictions :=
  .ok { starttime := starttime
        endtime := endtime
        chunklength := chunklength_in_sec
        network := network
        station := station
        location := location
        channel := channel
        reject_channels_with_gaps := reject_channels_with_gaps
        minimum_length := minimum_length
        channel_priorities := channel_priorities
        location_priorities := location_priorities
        minimum_interstation_distance_in_m :=
          minimum_interstation_distance_in_m }

/-- The while-loop of Restrictions.__iter__ (download_helpers.py:187-189):
`while starttime < endtime: yield (starttime, min(starttime + chunklength,
endtime)); starttime += chunklength`.  `fuel` bounds the number of loop
iterations; `Restrictions.iter` supplies enough fuel whenever
`chunklength > 0` (for `chunklength < 0` the Python loop never terminates,
which no finite list can model). -/
def chunkLoop (chunklength endtime : ℚ) : ℕ → ℚ → List (ℚ × ℚ)
  | 0, _ => []
  | fuel + 1, starttime =>
    if starttime < endtime then
      (starttime, min (starttime + chunklength) endtime) ::
        chunkLoop chunklength endtime fuel (starttime + chunklength)
    else []

/-- Restrictions.__iter__ (download_helpers.py:174-191).  `if not
self.chunklength` is a Python truthiness test: both `None` and `0.0` take
the first branch and yield the single pair `(starttime, endtime)`. -/
def Restrictions.iter (r : Restrictions) : List (ℚ × ℚ) :=
  match r.chunklength with
  | Option.none => [(r.starttime, r.endtime)]
  | Option.some c =>
    if c = 0 then [(r.starttime, r.endtime)]
    else
      chunkLoop c r.endtime
        ((⌈(r.endtime - r.starttime) / c⌉).toNat + 1) r.starttime

/-! ### Lemmas about the chunked time iterator -/

theorem chunkLoop_eq_nil (c e : ℚ) (fuel : ℕ) (t : ℚ) (h : ¬t < e) :
    chunkLoop c e fuel t = [] := by
  cases fuel with
  | zero => rfl
  | succ n => simp [chunkLoop, h]

theorem chunkLoop_eq_cons (c e : ℚ) (n : ℕ) (t : ℚ) (h : t < e) :
    chunkLoop c e (n + 1) t =
      (t, min (t + c) e) :: chunkLoop c e n (t + c) := by
  simp [chunkLoop, h]

/-- Closed form for the elements of the chunk loop: the `i`-th yielded pair
is `(t + i·c, min (t + (i+1)·c) e)`. -/
theorem chunkLoop_get? (c e : ℚ) :
    ∀ (fuel : ℕ) (t : ℚ) (i : ℕ), i < (chunkLoop c e fuel t).length →
      (chunkLoop c e fuel t).get? i =
        some (t + (i : ℚ) * c, min (t + ((i : ℚ) + 1) * c) e) := by
  intro fuel
  induction fuel with
  | zero => intro t i h; simp [chunkLoop] at h
  | succ n ih =>
    intro t i h
    by_cases ht : t < e
    · rw [chunkLoop_eq_cons c e n t ht] at h ⊢
      cases i with
      | zero =>
        simp
      | succ j =>
        have hj : j < (chunkLoop c e n (t + c)).length := by
          simpa using h
        rw [List.get?_cons_succ, ih (t + c) j hj]
        have h1 : t + c + (j : ℚ) * c = t + ((j : ℚ) + 1) * c := by ring
        have h2 : t + c + ((j : ℚ) + 1) * c = t + ((j : ℚ) + 1 + 1) * c := by
          ring
        rw [h1, h2]
        push_cast
        ring_nf
    · rw [chunkLoop_eq_nil c e (n + 1) t ht] at h
      simp at h

theorem chunkLoop_get (c e : ℚ) (fuel : ℕ) (t : ℚ) (i : ℕ)
    (h : i < (chunkLoop c e fuel t).length) :
    (chunkLoop c e fuel t).get ⟨i, h⟩ =
      (t + (i : ℚ) * c, min (t + ((i : ℚ) + 1) * c) e) := by
  have h1 := chunkLoop_get? c e fuel t i h
  rw [List.get?_eq_get h] at h1
  exact Option.some_injective _ h1

/-- With positive chunklength and enough fuel, the loop yields exactly
`⌈(e - t) / c⌉` pairs. -/
theorem chunkLoop_length (c e : ℚ) (hc : 0 < c) :
    ∀ (fuel : ℕ) (t : ℚ), t < e → ⌈(e - t) / c⌉.toNat ≤ fuel →
      (chunkLoop c e fuel t).length = ⌈(e - t) / c⌉.toNat := by
  intro fuel
  induction fuel with
  | zero =>
    intro t ht hf
    exfalso
    have hpos : 0 < (e - t) / c := div_pos (by linarith) hc
    have h1 : 0 < ⌈(e - t) / c⌉ := Int.ceil_pos.mpr hpos
    omega
  | succ n ih =>
    intro t ht hf
    rw [chunkLoop_eq_cons c e n t ht]
    simp only [List.length_cons]
    have key : ⌈(e - (t + c)) / c⌉ = ⌈(e - t) / c⌉ - 1 := by
      have harith : (e - (t + c)) / c = (e - t) / c - 1 := by
        field_simp
        ring
      rw [harith, Int.ceil_sub_one]
    by_cases h2 : t + c < e
    · have hpos2 : 0 < ⌈(e - (t + c)) / c⌉ :=
        Int.ceil_pos.mpr (div_pos (by linarith) hc)
      have hfn : ⌈(e - (t + c)) / c⌉.toNat ≤ n := by omega
      have hrec := ih (t + c) h2 hfn
      rw [hrec]
      have hpos1 : 0 < ⌈(e - t) / c⌉ :=
        Int.ceil_pos.mpr (div_pos (by linarith) hc)
      omega
    · rw [chunkLoop_eq_nil c e n (t + c) h2]
      have h1 : ⌈(e - t) / c⌉ = 1 := by
        have hpos : 0 < (e - t) / c := div_pos (by linarith) hc
        have hle : (e - t) / c ≤ 1 := by
          rw [div_le_one hc]; linarith
        have hch : ⌈(e - t) / c⌉ ≤ 1 := by
          apply Int.ceil_le.mpr; exact_mod_cast hle
        have hcl : 0 < ⌈(e - t) / c⌉ := Int.ceil_pos.mpr hpos
        omega
      rw [h1]
      rfl

/-- If `i` is below `⌈(e - t)/c⌉` then the `i`-th chunk start is before `e`. -/
theorem chunk_start_lt (c e t : ℚ) (hc : 0 < c) (i : ℕ)
    (hi : (i : ℤ) < ⌈(e - t) / c⌉) : t + (i : ℚ) * c < e := by
  have h3 : (⌈(e - t) / c⌉ : ℚ) - 1 < (e - t) / c := by
    have h := Int.ceil_lt_add_one ((e - t) / c)
    push_cast at h
    linarith
  have h1 : (i : ℚ) < (e - t) / c := by
    have h2 : (i : ℤ) ≤ ⌈(e - t) / c⌉ - 1 := by omega
    have h2' : (i : ℚ) ≤ (⌈(e - t) / c⌉ : ℚ) - 1 := by exact_mod_cast h2
    linarith
  have h4 : (i : ℚ) * c < e - t := (lt_div_iff₀ hc).mp h1
  linarith

/-! ### The Restrictions claims -/

/-- A concrete Restrictions value: the range `[0, 10)` chunked at 4, with the
default priority lists from download_helpers.py:149-152. -/
def rChunk : Restrictions :=
  { starttime := 0
    endtime := 10
    chunklength := some 4
    network := Option.none
    station := Option.none
    location := Option.none
    channel := Option.none
    reject_channels_with_gaps := true
    minimum_length := 9 / 10
    channel_priorities := ["HH[Z,N,E]", "BH[Z,N,E]", "MH[Z,N,E]",
      "EH[Z,N,E]", "LH[Z,N,E]"]
    location_priorities := ["", "00", "10"]
    minimum_interstation_distance_in_m := 1000 }

/-- C7: for every Restrictions with starttime < endtime, iterating with
chunklength unset yields exactly the single pair (starttime, endtime); with
a (positive) chunklength set, the yielded pairs (t, min (t + chunklength,
endtime)) partition [starttime, endtime) with no gaps and no overlaps: the
first pair starts at starttime, consecutive pairs abut, every pair is
nonempty, every non-terminal pair has length exactly chunklength, and the
iteration stops with the last pair ending at endtime. -/
theorem C7_restrictions_iter_partition (r : Restrictions)
    (hse : r.starttime < r.endtime) :
    (r.chunklength = Option.none → r.iter = [(r.starttime, r.endtime)]) ∧
    (∀ c : ℚ, r.chunklength = some c → 0 < c →
      r.iter ≠ [] ∧
      (∀ h0 : 0 < r.iter.length, (r.iter.get ⟨0, h0⟩).1 = r.starttime) ∧
      (∀ (i : ℕ) (h : i < r.iter.length), i = r.iter.length - 1 →
        (r.iter.get ⟨i, h⟩).2 = r.endtime) ∧
      (∀ (i : ℕ) (h : i < r.iter.length),
        (r.iter.get ⟨i, h⟩).1 < (r.iter.get ⟨i, h⟩).2) ∧
      (∀ (i : ℕ) (h : i + 1 < r.iter.length),
        (r.iter.get ⟨i, Nat.lt_of_succ_lt h⟩).2 =
            (r.iter.get ⟨i + 1, h⟩).1 ∧
          (r.iter.get ⟨i, Nat.lt_of_succ_lt h⟩).2 -
              (r.iter.get ⟨i, Nat.lt_of_succ_lt h⟩).1 = c) ∧
      (∀ p ∈ r.iter, p.2 = min (p.1 + c) r.endtime)) := by
  constructor
  · intro h
    unfold Restrictions.iter
    rw [h]
  · intro c hc hcpos
    have hc0 : ¬c = 0 := ne_of_gt hcpos
    have hiter : r.iter =
        chunkLoop c r.endtime
          ((⌈(r.endtime - r.starttime) / c⌉).toNat + 1) r.starttime := by
      unfold Restrictions.iter
      rw [hc]
      simp [hc0]
    have hNpos : 0 < ⌈(r.endtime - r.starttime) / c⌉ :=
      Int.ceil_pos.mpr (div_pos (by linarith) hcpos)
    have hlen : r.iter.length = (⌈(r.endtime - r.starttime) / c⌉).toNat := by
      rw [hiter]
      exact chunkLoop_length c r.endtime hcpos _ r.starttime hse (by omega)
    have hget : ∀ (i : ℕ) (h : i < r.iter.length),
        r.iter.get ⟨i, h⟩ =
          (r.starttime + (i : ℚ) * c,
            min (r.starttime + ((i : ℚ) + 1) * c) r.endtime) := by
      intro i h
      have hq : r.iter.get? i =
          some (r.starttime + (i : ℚ) * c,
            min (r.starttime + ((i : ℚ) + 1) * c) r.endtime) := by
        rw [hiter] at h ⊢
        exact chunkLoop_get? c r.endtime _ r.starttime i h
      rw [List.get?_eq_get h] at hq
      exact Option.some_injective _ hq
    have hstartlt : ∀ i : ℕ, i < r.iter.length →
        r.starttime + (i : ℚ) * c < r.endtime := by
      intro i hi
      apply chunk_start_lt c r.endtime r.starttime hcpos
      rw [hlen] at hi
      omega
    refine ⟨?_, ?_, ?_, ?_, ?_, ?_⟩
    · intro hnil
      rw [hnil] at hlen
      simp only [List.length_nil] at hlen
      omega
    · intro h0
      rw [hget 0 h0]
      simp
    · intro i h hi
      rw [hget i h]
      have hi1 : i + 1 = (⌈(r.endtime - r.starttime) / c⌉).toNat := by omega
      have hNc : r.endtime ≤
          r.starttime + (⌈(r.endtime - r.starttime) / c⌉ : ℚ) * c := by
        have h5 : (r.endtime - r.starttime) / c ≤
            (⌈(r.endtime - r.starttime) / c⌉ : ℚ) := Int.le_ceil _
        have h6 : r.endtime - r.starttime ≤
            (⌈(r.endtime - r.starttime) / c⌉ : ℚ) * c :=
          (div_le_iff₀ hcpos).mp h5
        linarith
      have hcast : (i : ℚ) + 1 = (⌈(r.endtime - r.starttime) / c⌉ : ℚ) := by
        have h7 : ((i + 1 : ℕ) : ℚ) =
            (((⌈(r.endtime - r.starttime) / c⌉).toNat : ℕ) : ℚ) := by
          exact_mod_cast congrArg (fun n : ℕ => (n : ℚ)) hi1
        have h8 : (((⌈(r.endtime - r.starttime) / c⌉).toNat : ℕ) : ℚ) =
            (⌈(r.endtime - r.starttime) / c⌉ : ℚ) := by
          exact_mod_cast
            congrArg (fun z : ℤ => (z : ℚ)) (Int.toNat_of_nonneg hNpos.le)
        push_cast at h7
        rw [h8] at h7
        exact h7
      rw [hcast]
      exact min_eq_right hNc
    · intro i h
      rw [hget i h]
      dsimp only
      have h1 := hstartlt i h
      have h2 : r.starttime + ((i : ℚ) + 1) * c =
          r.starttime + (i : ℚ) * c + c := by ring
      refine lt_min ?_ h1
      rw [h2]
      linarith
    · intro i h
      rw [hget i (Nat.lt_of_succ_lt h), hget (i + 1) h]
      have h1 := hstartlt (i + 1) h
      have hpc : ((i + 1 : ℕ) : ℚ) = (i : ℚ) + 1 := by push_cast; ring
      rw [hpc] at h1
      have hmin : min (r.starttime + ((i : ℚ) + 1) * c) r.endtime =
          r.starttime + ((i : ℚ) + 1) * c := min_eq_left h1.le
      constructor
      · rw [hmin, hpc]
      · rw [hmin]
        ring
    · intro p hp
      obtain ⟨⟨i, h⟩, rfl⟩ := List.mem_iff_get.mp hp
      rw [hget i h]
      ring_nf

/-- C7 witness: the chunked example `[0, 10)` with chunklength 4 yields a
nonempty partition. -/
theorem C7_restrictions_iter_partition_witness : rChunk.iter ≠ [] :=
  ((C7_restrictions_iter_partition rChunk (by decide)).2 4 rfl (by decide)).1

/-- C8 counterexample: constructing a Restrictions with endtime (0) ≤
starttime (1) and minimum_length 2 ∉ [0, 1] does not raise any error — the
constructor succeeds, refuting the claim that such configurations are
surfaced to the caller synchronously. -/
theorem C8_counterexample_init_no_error :
    (0 : ℚ) ≤ 1 ∧ ¬((0 : ℚ) ≤ 2 ∧ (2 : ℚ) ≤ 1) ∧
    (Restrictions.init 1 0 Option.none Option.none Option.none Option.none
        Option.none true 2 1000 [] []).isOk = true := by
  refine ⟨by norm_num, by norm_num, rfl⟩

/-- C8 (amended): Restrictions.__init__ performs no validation: even for
endtime ≤ starttime or minimum_length outside [0, 1], it raises nothing and
simply stores its arguments. -/
theorem C8_amended_init_accepts_anything (st et : ℚ) (cl : Option ℚ)
    (nw sta loc cha : Option String) (rj : Bool) (ml mid : ℚ)
    (cp lp : List String)
    (hbad : et ≤ st ∨ ml < 0 ∨ 1 < ml) :
    Restrictions.init st et cl nw sta loc cha rj ml mid cp lp =
      .ok { starttime := st, endtime := et, chunklength := cl,
            network := nw, station := sta, location := loc, channel := cha,
            reject_channels_with_gaps := rj, minimum_length := ml,
            channel_priorities := cp, location_priorities := lp,
            minimum_interstation_distance_in_m := mid } := rfl

/-- C8 witness: the invalid configuration (endtime 0 ≤ starttime 1,
minimum_length 2) is accepted and stored verbatim. -/
theorem C8_amended_init_accepts_anything_witness :
    Restrictions.init 1 0 Option.none Option.none Option.none Option.none
        Option.none true 2 1000 [] [] =
      .ok { starttime := 1, endtime := 0, chunklength := Option.none,
            network := Option.none, station := Option.none,
            location := Option.none, channel := Option.none,
            reject_channels_with_gaps := true, minimum_length := 2,
            channel_priorities := [], location_priorities := [],
            minimum_interstation_distance_in_m := 1000 } :=
  C8_amended_init_accepts_anything 1 0 Option.none Option.none Option.none
    Option.none Option.none true 2 1000 [] [] (Or.inl (by decide))

/-- C10: iterating a Restrictions whose chunklength is 0 terminates and
yields exactly the single pair (starttime, endtime), identical to the
chunklength-unset case, because `if not self.chunklength` treats 0.0 as
falsy and the chunked while-loop is never entered. -/
theorem C10_chunklength_zero_single_pair (r : Restrictions)
    (h : r.chunklength = some 0) :
    r.iter = [(r.starttime, r.endtime)] ∧
    r.iter = Restrictions.iter { r with chunklength := Option.none } := by
  have h1 : r.iter = [(r.starttime, r.endtime)] := by
    unfold Restrictions.iter
    rw [h]
    simp
  exact ⟨h1, h1⟩

/-- A Restrictions value with chunklength literally 0. -/
def rChunkZero : Restrictions := { rChunk with chunklength := some 0 }

/-- C10 witness: the concrete zero-chunklength configuration yields the
single full-range pair. -/
theorem C10_chunklength_zero_single_pair_witness :
    rChunkZero.iter = [(rChunkZero.starttime, rChunkZero.endtime)] ∧
    rChunkZero.iter =
      Restrictions.iter { rChunkZero with chunklength := Option.none } :=
  C10_chunklength_zero_single_pair rChunkZero rfl

/-! ### Filesystem model -/

/-- One trace of a MiniSEED stream, reduced to the header fields the QC pass
reads (`tr.stats.starttime` / `tr.stats.endtime`). -/
structure Trace where
  starttime : ℚ
  endtime : ℚ
deriving DecidableEq, Repr

/-- What `obspy.read` returns for a file: an exception (unreadable) or a
stream of traces. -/
inductive ReadResult
  | unreadable
  | stream (traces : List Trace)
deriving DecidableEq, Repr

/-- One coverage row of a parsed StationXML file, as returned by
`utils.get_stationxml_contents`. -/
structure SXRow where
  network : String
  station : String
  location : String
  channel : String
  starttime : ℚ
  endtime : ℚ
deriving DecidableEq, Repr

/-- Content of one file on disk, as far as the orchestrator observes it. -/
inductive FileData
  | waveform (r : ReadResult)
  | stationxml (rows : List SXRow)
deriving DecidableEq, Repr

/-- A file on disk: its size in bytes and its content. -/
structure DiskFile where
  size : ℕ
  data : FileData
deriving DecidableEq, Repr

/-- The filesystem: an association list from path to file. -/
abbrev FS := List (String × DiskFile)

/-- `os.path.exists`. -/
def fsExists (fs : FS) (p : String) : Bool :=
  (fs.lookup p).isSome

/-- `utils.safe_delete` / `os.remove` (removing an absent file is a no-op,
`safe_delete` swallows the OSError). -/
def fsDelete (fs : FS) (p : String) : FS :=
  fs.filter (fun kv => kv.1 ≠ p)

/-- What `obspy.read` returns for a path already known to exist: a
StationXML file is not a waveform and raises (unreadable). -/
def DiskFile.readStream : DiskFile → ReadResult
  | ⟨_, FileData.waveform r⟩ => r
  | ⟨_, FileData.stationxml _⟩ => ReadResult.unreadable

/-- `utils.get_stationxml_contents` on an existing StationXML file. -/
def get_stationxml_contents (fs : FS) (p : String) : List SXRow :=
  match fs.lookup p with
  | some ⟨_, FileData.stationxml rows⟩ => rows
  | _ => []

theorem fsDelete_lookup_ne (fs : FS) (p q : String) (h : q ≠ p) :
    (fsDelete fs p).lookup q = fs.lookup q := by
  induction fs with
  | nil => rfl
  | cons kv rest ih =>
    by_cases hk : kv.1 = p
    · have h1 : ¬q = kv.1 := by rw [hk]; exact h
      simp only [fsDelete, List.filter_cons]
      rw [if_neg (by simp [hk])]
      rw [← fsDelete, ih]
      cases kv with
      | mk k v =>
        simp only at hk
        subst hk
        simp [List.lookup, beq_false_of_ne h]
    · simp only [fsDelete, List.filter_cons]
      rw [if_pos (by simp [hk])]
      cases kv with
      | mk k v =>
        by_cases hq : q = k
        · subst hq
          simp [List.lookup]
        · simp only [List.lookup, beq_false_of_ne hq]
          exact ih

/-! ### The QC pass (_check_downloaded_data) -/

/-- Result of the QC loop body for one time interval: either the updated
interval together with the filesystem and running byte counters, or a crash
(the `len(str)` TypeError raised while formatting the log message in the
gap-rejection branch, download_status.py:674-676, which aborts the whole
pass before `safe_delete` runs). -/
inductive QCOutcome
  | ok (iv : TimeInterval) (fs : FS) (downloaded discarded : ℕ)
  | crash (iv : TimeInterval) (fs : FS) (downloaded discarded : ℕ)
deriving DecidableEq, Repr

def QCOutcome.interval : QCOutcome → TimeInterval
  | .ok iv _ _ _ => iv
  | .crash iv _ _ _ => iv

def QCOutcome.fs : QCOutcome → FS
  | .ok _ fs _ _ => fs
  | .crash _ fs _ _ => fs

/-- The loop body of ClientDownloadHelper._check_downloaded_data
(download_status.py:630-700) for a single time interval:

* status ≠ NEEDS_DOWNLOADING → untouched (line 632);
* file missing → DOWNLOAD_FAILED (637-639);
* zero size → delete, DOWNLOAD_FAILED (641-647);
* unreadable → delete, DOWNLOAD_FAILED, size discarded (650-659);
* zero traces → delete, DOWNLOAD_FAILED, size discarded (662-669);
* gaps and reject_channels_with_gaps → the log call evaluates `len(str)` on
  the `str` builtin and raises TypeError (672-680): crash, nothing mutated;
* truthy minimum_length → `safe_delete`, the discarded-bytes increment and
  the DOWNLOAD_REJECTED assignment are indented OUTSIDE the
  `duration < expected_min_duration` test (688-697), so the interval is
  deleted and rejected regardless of its covered duration (the duration
  comparison only selects whether a log line is emitted);
* otherwise (minimum_length falsy, i.e. 0) → DOWNLOADED, size counted as
  downloaded (699-700).

`os.path.exists(None)` for a needs_downloading interval without a filename
would also raise TypeError; it is mapped to crash. -/
def check_interval (r : Restrictions) (fs : FS) (downloaded discarded : ℕ)
    (iv : TimeInterval) : QCOutcome :=
  if iv.status ≠ Status.needs_downloading then
    .ok iv fs downloaded discarded
  else
    match iv.filename with
    | Option.none => .crash iv fs downloaded discarded
    | some fname =>
      match fs.lookup fname with
      | Option.none =>
        .ok { iv with status := Status.download_failed } fs downloaded
          discarded
      | some file =>
        if file.size = 0 then
          .ok { iv with status := Status.download_failed }
            (fsDelete fs fname) downloaded discarded
        else
          match file.readStream with
          | ReadResult.unreadable =>
            .ok { iv with status := Status.download_failed }
              (fsDelete fs fname) downloaded (discarded + file.size)
          | ReadResult.stream st =>
            if st.length = 0 then
              .ok { iv with status := Status.download_failed }
                (fsDelete fs fname) downloaded (discarded + file.size)
            else if r.reject_channels_with_gaps = true ∧ 1 < st.length then
              .crash iv fs downloaded discarded
            else if r.minimum_length ≠ 0 then
              .ok { iv with status := Status.download_rejected }
                (fsDelete fs fname) downloaded (discarded + file.size)
            else
              .ok { iv with status := Status.downloaded } fs
                (downloaded + file.size) discarded

/-- The interval loop of _check_downloaded_data over one channel.  A crash
propagates immediately (the exception leaves the remaining intervals
untouched); the final Bool records whether the pass crashed. -/
def check_intervals (r : Restrictions) :
    List TimeInterval → FS → ℕ → ℕ →
      List TimeInterval × FS × ℕ × ℕ × Bool
  | [], fs, db, dc => ([], fs, db, dc, false)
  | iv :: rest, fs, db, dc =>
    match check_interval r fs db dc iv with
    | QCOutcome.ok iv' fs' db' dc' =>
      let res := check_intervals r rest fs' db' dc'
      (iv' :: res.1, res.2.1, res.2.2.1, res.2.2.2.1, res.2.2.2.2)
    | QCOutcome.crash iv' fs' db' dc' => (iv' :: rest, fs', db', dc', true)

/-- The channel loop of _check_downloaded_data over one station. -/
def check_channels (r : Restrictions) :
    List Channel → FS → ℕ → ℕ → List Channel × FS × ℕ × ℕ × Bool
  | [], fs, db, dc => ([], fs, db, dc, false)
  | ch :: rest, fs, db, dc =>
    let res := check_intervals r ch.intervals fs db dc
    if res.2.2.2.2 then
      ({ ch with intervals := res.1 } :: rest, res.2.1, res.2.2.1,
        res.2.2.2.1, true)
    else
      let res' := check_channels r rest res.2.1 res.2.2.1 res.2.2.2.1
      ({ ch with intervals := res.1 } :: res'.1, res'.2.1, res'.2.2.1,
        res'.2.2.2.1, res'.2.2.2.2)

/-- The station map of a ClientDownloadHelper: `self.stations`, keyed by
`(network, station)` in insertion order. -/
abbrev StationsMap := List ((String × String) × Station)

/-- The station loop of _check_downloaded_data. -/
def check_stations (r : Restrictions) :
    StationsMap → FS → ℕ → ℕ → StationsMap × FS × ℕ × ℕ × Bool
  | [], fs, db, dc => ([], fs, db, dc, false)
  | (k, sta) :: rest, fs, db, dc =>
    let res := check_channels r sta.channels fs db dc
    if res.2.2.2.2 then
      ((k, { sta with channels := res.1 }) :: rest, res.2.1, res.2.2.1,
        res.2.2.2.1, true)
    else
      let res' := check_stations r rest res.2.1 res.2.2.1 res.2.2.2.1
      ((k, { sta with channels := res.1 }) :: res'.1, res'.2.1, res'.2.2.1,
        res'.2.2.2.1, res'.2.2.2.2)

/-- ClientDownloadHelper._check_downloaded_data (download_status.py:618-701):
runs the triple loop starting from zero byte counters and returns the
updated stations, the filesystem, `(downloaded_bytes, discarded_bytes)` and
whether the pass raised. -/
def check_downloaded_data (r : Restrictions) (stations : StationsMap)
    (fs : FS) : StationsMap × FS × ℕ × ℕ × Bool :=
  check_stations r stations fs 0 0

/-- The duration computed at download_status.py:683-684:
`sum([tr.stats.endtime - tr.stats.starttime for tr in st])`. -/
def traceDuration (st : List Trace) : ℚ :=
  (st.map (fun tr => tr.endtime - tr.starttime)).sum

/-! ### Frame lemmas for the QC pass -/

theorem check_interval_frame (r : Restrictions) (fs : FS) (db dc : ℕ)
    (iv : TimeInterval) (h : iv.status ≠ Status.needs_downloading) :
    check_interval r fs db dc iv = QCOutcome.ok iv fs db dc := by
  unfold check_interval
  rw [if_pos h]

/-- The QC loop body either leaves the filesystem alone or deletes exactly
the file of a needs_downloading interval. -/
theorem check_interval_fs_cases (r : Restrictions) (fs : FS) (db dc : ℕ)
    (iv : TimeInterval) :
    (check_interval r fs db dc iv).fs = fs ∨
      (iv.status = Status.needs_downloading ∧ ∃ fname,
        iv.filename = some fname ∧
        (check_interval r fs db dc iv).fs = fsDelete fs fname) := by
  unfold check_interval
  by_cases hs : iv.status ≠ Status.needs_downloading
  · rw [if_pos hs]; left; rfl
  · rw [if_neg hs]
    push_neg at hs
    split
    · left; rfl
    next fname hfn =>
      split
      · left; rfl
      next file hlk =>
        split
        · right; exact ⟨hs, fname, hfn, rfl⟩
        · split
          · right; exact ⟨hs, fname, hfn, rfl⟩
          next st hrs =>
            split
            · right; exact ⟨hs, fname, hfn, rfl⟩
            · split
              · left; rfl
              · split
                · right; exact ⟨hs, fname, hfn, rfl⟩
                · left; rfl

theorem check_interval_fs_lookup (r : Restrictions) (fs : FS) (db dc : ℕ)
    (iv : TimeInterval) (f : String)
    (hne : iv.status ≠ Status.needs_downloading ∨ iv.filename ≠ some f) :
    (check_interval r fs db dc iv).fs.lookup f = fs.lookup f := by
  rcases check_interval_fs_cases r fs db dc iv with h | ⟨hst, fname, hfn, hfs⟩
  · rw [h]
  · rw [hfs]
    apply fsDelete_lookup_ne
    intro hq
    rcases hne with h1 | h1
    · exact h1 hst
    · apply h1; rw [hfn, hq]

theorem check_intervals_frame (r : Restrictions) :
    ∀ (ivs : List TimeInterval) (fs : FS) (db dc : ℕ) (i : ℕ)
      (h : i < ivs.length),
      (ivs.get ⟨i, h⟩).status ≠ Status.needs_downloading →
      (check_intervals r ivs fs db dc).1.get? i = some (ivs.get ⟨i, h⟩) := by
  intro ivs
  induction ivs with
  | nil => intro fs db dc i h; simp at h
  | cons iv rest ih =>
    intro fs db dc i h hst
    cases i with
    | zero =>
      have hframe := check_interval_frame r fs db dc iv hst
      simp only [check_intervals, hframe]
      rfl
    | succ j =>
      have hj : j < rest.length := Nat.lt_of_succ_lt_succ h
      cases hout : check_interval r fs db dc iv with
      | ok iv' fs' db' dc' =>
        simp only [check_intervals, hout]
        exact ih fs' db' dc' j hj hst
      | crash iv' fs' db' dc' =>
        simp only [check_intervals, hout, List.get?_cons_succ]
        exact List.get?_eq_get hj

theorem check_intervals_fs (r : Restrictions) :
    ∀ (ivs : List TimeInterval) (fs : FS) (db dc : ℕ) (f : String),
      (∀ iv ∈ ivs, iv.status = Status.needs_downloading →
        iv.filename ≠ some f) →
      (check_intervals r ivs fs db dc).2.1.lookup f = fs.lookup f := by
  intro ivs
  induction ivs with
  | nil => intro fs db dc f _; rfl
  | cons iv rest ih =>
    intro fs db dc f hall
    have hdisj : iv.status ≠ Status.needs_downloading ∨
        iv.filename ≠ some f := by
      by_cases hst : iv.status = Status.needs_downloading
      · exact Or.inr (hall iv (List.mem_cons_self iv rest) hst)
      · exact Or.inl hst
    have h1 := check_interval_fs_lookup r fs db dc iv f hdisj
    cases hout : check_interval r fs db dc iv with
    | ok iv' fs' db' dc' =>
      rw [hout] at h1
      simp only [check_intervals, hout]
      have h2 := ih fs' db' dc' f
        (fun x hx => hall x (List.mem_cons_of_mem iv hx))
      rw [h2]
      exact h1
    | crash iv' fs' db' dc' =>
      rw [hout] at h1
      simp only [check_intervals, hout]
      exact h1

theorem check_channels_frame (r : Restrictions) :
    ∀ (chs : List Channel) (fs : FS) (db dc : ℕ) (j : ℕ)
      (hj : j < chs.length) (i : ℕ)
      (hi : i < (chs.get ⟨j, hj⟩).intervals.length),
      ((chs.get ⟨j, hj⟩).intervals.get ⟨i, hi⟩).status ≠
          Status.needs_downloading →
      ∃ ch', (check_channels r chs fs db dc).1.get? j = some ch' ∧
        ch'.location = (chs.get ⟨j, hj⟩).location ∧
        ch'.channel = (chs.get ⟨j, hj⟩).channel ∧
        ch'.intervals.get? i =
          some ((chs.get ⟨j, hj⟩).intervals.get ⟨i, hi⟩) := by
  intro chs
  induction chs with
  | nil => intro fs db dc j hj; simp at hj
  | cons ch rest ih =>
    intro fs db dc j hj i hi hst
    cases j with
    | zero =>
      refine ⟨{ ch with intervals :=
        (check_intervals r ch.intervals fs db dc).1 }, ?_, rfl, rfl, ?_⟩
      · by_cases hcr : (check_intervals r ch.intervals fs db dc).2.2.2.2
        · simp only [check_channels, if_pos hcr, List.get?_cons_zero]
        · simp only [check_channels, if_neg hcr, List.get?_cons_zero]
      · exact check_intervals_frame r ch.intervals fs db dc i hi hst
    | succ j' =>
      have hj' : j' < rest.length := Nat.lt_of_succ_lt_succ hj
      by_cases hcr : (check_intervals r ch.intervals fs db dc).2.2.2.2
      · refine ⟨rest.get ⟨j', hj'⟩, ?_, rfl, rfl, ?_⟩
        · simp only [check_channels, if_pos hcr, List.get?_cons_succ]
          exact List.get?_eq_get hj'
        · exact List.get?_eq_get hi
      · have hrec := ih (check_intervals r ch.intervals fs db dc).2.1
          (check_intervals r ch.intervals fs db dc).2.2.1
          (check_intervals r ch.intervals fs db dc).2.2.2.1 j' hj' i hi hst
        obtain ⟨ch', h1, h2, h3, h4⟩ := hrec
        refine ⟨ch', ?_, h2, h3, h4⟩
        simp only [check_channels, if_neg hcr, List.get?_cons_succ]
        exact h1

theorem check_channels_fs (r : Restrictions) :
    ∀ (chs : List Channel) (fs : FS) (db dc : ℕ) (f : String),
      (∀ ch ∈ chs, ∀ iv ∈ ch.intervals,
        iv.status = Status.needs_downloading → iv.filename ≠ some f) →
      (check_channels r chs fs db dc).2.1.lookup f = fs.lookup f := by
  intro chs
  induction chs with
  | nil => intro fs db dc f _; rfl
  | cons ch rest ih =>
    intro fs db dc f hall
    have h1 := check_intervals_fs r ch.intervals fs db dc f
      (hall ch (List.mem_cons_self ch rest))
    by_cases hcr : (check_intervals r ch.intervals fs db dc).2.2.2.2
    · simp only [check_channels, if_pos hcr]
      exact h1
    · simp only [check_channels, if_neg hcr]
      have h2 := ih (check_intervals r ch.intervals fs db dc).2.1
        (check_intervals r ch.intervals fs db dc).2.2.1
        (check_intervals r ch.intervals fs db dc).2.2.2.1 f
        (fun x hx => hall x (List.mem_cons_of_mem ch hx))
      rw [h2]
      exact h1

theorem check_stations_frame (r : Restrictions) :
    ∀ (sm : StationsMap) (fs : FS) (db dc : ℕ) (s : ℕ)
      (hs : s < sm.length) (j : ℕ)
      (hj : j < (sm.get ⟨s, hs⟩).2.channels.length) (i : ℕ)
      (hi : i < ((sm.get ⟨s, hs⟩).2.channels.get ⟨j, hj⟩).intervals.length),
      (((sm.get ⟨s, hs⟩).2.channels.get ⟨j, hj⟩).intervals.get
          ⟨i, hi⟩).status ≠ Status.needs_downloading →
      ∃ entry, (check_stations r sm fs db dc).1.get? s = some entry ∧
        entry.1 = (sm.get ⟨s, hs⟩).1 ∧
        entry.2.network = (sm.get ⟨s, hs⟩).2.network ∧
        entry.2.station = (sm.get ⟨s, hs⟩).2.station ∧
        ∃ ch', entry.2.channels.get? j = some ch' ∧
          ch'.location = ((sm.get ⟨s, hs⟩).2.channels.get ⟨j, hj⟩).location ∧
          ch'.channel = ((sm.get ⟨s, hs⟩).2.channels.get ⟨j, hj⟩).channel ∧
          ch'.intervals.get? i =
            some (((sm.get ⟨s, hs⟩).2.channels.get ⟨j, hj⟩).intervals.get
              ⟨i, hi⟩) := by
  intro sm
  induction sm with
  | nil => intro fs db dc s hs; simp at hs
  | cons entry rest ih =>
    intro fs db dc s hs j hj i hi hst
    obtain ⟨k, sta⟩ := entry
    cases s with
    | zero =>
      have hch := check_channels_frame r sta.channels fs db dc j hj i hi hst
      obtain ⟨ch', h1, h2, h3, h4⟩ := hch
      refine ⟨(k, { sta with channels :=
        (check_channels r sta.channels fs db dc).1 }), ?_, rfl, rfl, rfl,
        ch', h1, h2, h3, h4⟩
      by_cases hcr : (check_channels r sta.channels fs db dc).2.2.2.2
      · simp only [check_stations, if_pos hcr, List.get?_cons_zero]
      · simp only [check_stations, if_neg hcr, List.get?_cons_zero]
    | succ s' =>
      have hs' : s' < rest.length := Nat.lt_of_succ_lt_succ hs
      by_cases hcr : (check_channels r sta.channels fs db dc).2.2.2.2
      · refine ⟨rest.get ⟨s', hs'⟩, ?_, rfl, rfl, rfl,
          (rest.get ⟨s', hs'⟩).2.channels.get ⟨j, hj⟩, ?_, rfl, rfl, ?_⟩
        · simp only [check_stations, if_pos hcr, List.get?_cons_succ]
          exact List.get?_eq_get hs'
        · exact List.get?_eq_get hj
        · exact List.get?_eq_get hi
      · have hrec := ih (check_channels r sta.channels fs db dc).2.1
          (check_channels r sta.channels fs db dc).2.2.1
          (check_channels r sta.channels fs db dc).2.2.2.1 s' hs' j hj i hi
          hst
        obtain ⟨entry', h1, hrest⟩ := hrec
        refine ⟨entry', ?_, hrest⟩
        simp only [check_stations, if_neg hcr, List.get?_cons_succ]
        exact h1

theorem check_stations_fs (r : Restrictions) :
    ∀ (sm : StationsMap) (fs : FS) (db dc : ℕ) (f : String),
      (∀ p ∈ sm, ∀ ch ∈ p.2.channels, ∀ iv ∈ ch.intervals,
        iv.status = Status.needs_downloading → iv.filename ≠ some f) →
      (check_stations r sm fs db dc).2.1.lookup f = fs.lookup f := by
  intro sm
  induction sm with
  | nil => intro fs db dc f _; rfl
  | cons entry rest ih =>
    intro fs db dc f hall
    obtain ⟨k, sta⟩ := entry
    have h1 := check_channels_fs r sta.channels fs db dc f
      (hall (k, sta) (List.mem_cons_self _ rest))
    by_cases hcr : (check_channels r sta.channels fs db dc).2.2.2.2
    · simp only [check_stations, if_pos hcr]
      exact h1
    · simp only [check_stations, if_neg hcr]
      have h2 := ih (check_channels r sta.channels fs db dc).2.1
        (check_channels r sta.channels fs db dc).2.2.1
        (check_channels r sta.channels fs db dc).2.2.2.1 f
        (fun x hx => hall x (List.mem_cons_of_mem _ hx))
      rw [h2]
      exact h1

/-! ### C2: the minimum-length branch of the QC pass -/

/-- Restrictions with no chunking and truthy minimum_length 1 (any nonzero
value selects the same code path as the 0.9 default). -/
def rQC : Restrictions :=
  { rChunk with chunklength := Option.none, minimum_length := 1 }

/-- An interval [0, 100) whose download wrote a file with full coverage. -/
def ivFull : TimeInterval :=
  { start := 0, end_ := 100, filename := some "NET.STA..LHZ.mseed",
    status := Status.needs_downloading }

def chFull : Channel :=
  { location := "", channel := "LHZ", intervals := [ivFull] }

def staFull : Station :=
  { network := "NET", station := "STA", latitude := 0, longitude := 0,
    channels := [chFull], stationxml_filename := Option.none,
    want_station_information := [], miss_station_information := [],
    have_station_information := [] }

/-- The downloaded file: 512 bytes, one trace covering all of [0, 100]. -/
def fsFull : FS :=
  [("NET.STA..LHZ.mseed",
    { size := 512,
      data := FileData.waveform
        (ReadResult.stream [{ starttime := 0, endtime := 100 }]) })]

/-- C2: the claim states that an interval whose file is parseable, gap-free
and whose covered duration is at least `minimum_length × (end - start)` is
kept, marked `downloaded` and counted in downloaded_bytes.  In the code the
`safe_delete` / discard / DOWNLOAD_REJECTED block sits outside the
`duration < expected_min_duration` test (download_status.py:688-697), so
with a truthy minimum_length even a file covering 100% of the
interval (duration 100 ≥ minimum_length × 100) is deleted, marked
download_rejected and counted as discarded. -/
theorem C2_qc_rejects_file_meeting_minimum_length :
    rQC.minimum_length ≠ 0 ∧
    rQC.minimum_length * (ivFull.end_ - ivFull.start) ≤
      traceDuration [{ starttime := 0, endtime := 100 }] ∧
    check_downloaded_data rQC [(("NET", "STA"), staFull)] fsFull =
      ([(("NET", "STA"),
          { staFull with channels := [{ chFull with intervals :=
              [{ ivFull with status := Status.download_rejected }] }] })],
        [], 0, 512, false) := by
  refine ⟨?_, ?_, ?_⟩
  · norm_num [rQC, rChunk]
  · norm_num [rQC, rChunk, ivFull, traceDuration]
  · decide

/-! ### C9: QC is frame-preserving on non-needs_downloading intervals -/

/-- C9: the QC pass never touches an interval whose status at entry is one
of none, ignore, exists, downloaded, download_failed, download_rejected
(i.e. anything but needs_downloading): the interval reappears at the same
position with identical status and filename, and — as long as no
needs_downloading interval shares its file path — its file is not deleted
by the pass. -/
theorem C9_qc_frame_preserving (r : Restrictions) (sm : StationsMap)
    (fs : FS) (s j i : ℕ) (hs : s < sm.length)
    (hj : j < (sm.get ⟨s, hs⟩).2.channels.length)
    (hi : i < ((sm.get ⟨s, hs⟩).2.channels.get ⟨j, hj⟩).intervals.length)
    (hst : (((sm.get ⟨s, hs⟩).2.channels.get ⟨j, hj⟩).intervals.get
        ⟨i, hi⟩).status ∈
      [Status.none, Status.ignore, Status.exists, Status.downloaded,
        Status.download_failed, Status.download_rejected]) :
    (∃ entry, (check_downloaded_data r sm fs).1.get? s = some entry ∧
      entry.1 = (sm.get ⟨s, hs⟩).1 ∧
      ∃ ch', entry.2.channels.get? j = some ch' ∧
        ch'.intervals.get? i =
          some (((sm.get ⟨s, hs⟩).2.channels.get ⟨j, hj⟩).intervals.get
            ⟨i, hi⟩)) ∧
    (∀ f : String,
      (∀ p ∈ sm, ∀ ch ∈ p.2.channels, ∀ iv ∈ ch.intervals,
        iv.status = Status.needs_downloading → iv.filename ≠ some f) →
      (check_downloaded_data r sm fs).2.1.lookup f = fs.lookup f) := by
  have hne : (((sm.get ⟨s, hs⟩).2.channels.get ⟨j, hj⟩).intervals.get
      ⟨i, hi⟩).status ≠ Status.needs_downloading := by
    intro hEq
    rw [hEq] at hst
    exact absurd hst (by decide)
  constructor
  · obtain ⟨entry, h1, hkey, _, _, ch', hch, _, _, hiv⟩ :=
      check_stations_frame r sm fs 0 0 s hs j hj i hi hne
    exact ⟨entry, h1, hkey, ch', hch, hiv⟩
  · intro f hall
    exact check_stations_fs r sm fs 0 0 f hall

/-- An interval that already existed on disk before the run. -/
def ivKeep : TimeInterval :=
  { start := 0, end_ := 100, filename := some "keep.mseed",
    status := Status.exists }

def chKeep : Channel :=
  { location := "", channel := "LHZ", intervals := [ivKeep] }

def staKeep : Station :=
  { network := "NET", station := "STA", latitude := 0, longitude := 0,
    channels := [chKeep], stationxml_filename := Option.none,
    want_station_information := [], miss_station_information := [],
    have_station_information := [] }

def smKeep : StationsMap := [(("NET", "STA"), staKeep)]

def fsKeep : FS :=
  [("keep.mseed",
    { size := 7,
      data := FileData.waveform
        (ReadResult.stream [{ starttime := 0, endtime := 100 }]) })]

/-- C9 witness: the pre-existing file of an `exists` interval survives the
QC pass untouched. -/
theorem C9_qc_frame_preserving_witness :
    (check_downloaded_data rQC smKeep fsKeep).2.1.lookup "keep.mseed" =
      fsKeep.lookup "keep.mseed" :=
  (C9_qc_frame_preserving rQC smKeep fsKeep 0 0 0 (by decide) (by decide)
    (by decide) (by decide)).2 "keep.mseed" (by decide)

/-! ### C1: sanitize_downloads -/

/-- Station.sanitize_downloads (download_status.py:234-251).  The loop body
begins with `logger.warnings(...)` — a `logging.Logger` has no attribute
`warnings` (the method is `warning`), so the first iteration raises
AttributeError; even past that, `self.channels[id]` (line 246) indexes the
channel LIST with a `(location, channel)` tuple, a TypeError.  With a
non-empty miss_station_information the method therefore raises before
mutating anything; with an empty map the loop body never runs. -/
def Station.sanitize_downloads (st : Station) (fs : FS) :
    Except String (Station × FS) :=
  match st.miss_station_information with
  | [] => .ok (st, fs)
  | (id₁, _) :: _ =>
    .error ("AttributeError: Logger object has no attribute warnings; raised while logging for "
      ++ st.network ++ "." ++ st.station ++ "." ++ id₁.1 ++ "." ++ id₁.2)

/-- ClientDownloadHelper.sanitize_downloads (download_status.py:609-616):
runs Station.sanitize_downloads on every station; an exception propagates
immediately, leaving the orchestrator with no updated state. -/
def sanitize_downloads (sm : StationsMap) (fs : FS) :
    Except String (StationsMap × FS) :=
  match sm with
  | [] => .ok ([], fs)
  | (k, sta) :: rest =>
    match Station.sanitize_downloads sta fs with
    | .error e => .error e
    | .ok (sta', fs') =>
      match sanitize_downloads rest fs' with
      | .error e => .error e
      | .ok (rest', fs'') => .ok ((k, sta') :: rest', fs'')

/-- A downloaded interval whose channel still misses metadata. -/
def ivDl : TimeInterval :=
  { start := 0, end_ := 100, filename := some "dl.mseed",
    status := Status.downloaded }

def chDl : Channel :=
  { location := "", channel := "HHZ", intervals := [ivDl] }

/-- A station whose `("", "HHZ")` entry is still in miss_station_information
while the corresponding interval is downloaded. -/
def staMiss : Station :=
  { network := "NET", station := "STA", latitude := 0, longitude := 0,
    channels := [chDl], stationxml_filename := some "NET.STA.xml",
    want_station_information := [(("", "HHZ"), (0, 100))],
    miss_station_information := [(("", "HHZ"), (0, 100))],
    have_station_information := [] }

def fsDl : FS :=
  [("dl.mseed",
    { size := 33,
      data := FileData.waveform
        (ReadResult.stream [{ starttime := 0, endtime := 100 }]) })]

/-- C1: the claim states that sanitize_downloads deletes the downloaded
waveforms of channels still missing metadata and sets their intervals to
download_rejected, so that afterwards a station with non-empty
miss_station_information has no downloaded interval.  On a station with
non-empty miss_station_information the loop body raises on its very first
statement (`logger.warnings`, and `self.channels[id]` would be a TypeError
too), so the method never completes: nothing is deleted, the interval stays
`downloaded`, and the enforced invariant fails. -/
theorem C1_sanitize_downloads_raises_instead_of_deleting :
    staMiss.miss_station_information ≠ [] ∧
    ivDl.status = Status.downloaded ∧
    (Station.sanitize_downloads staMiss fsDl).isOk = false ∧
    (sanitize_downloads [(("NET", "STA"), staMiss)] fsDl).isOk = false := by
  decide

/-! ### C4: want = have ⊎ miss for the station-information maps -/

/-- Python min over a non-empty list (`min([])` raises; every call site
passes a non-empty list, the [] case is a junk value). -/
def minQ : List ℚ → ℚ
  | [] => 0
  | x :: xs => xs.foldl min x

/-- Python max over a non-empty list. -/
def maxQ : List ℚ → ℚ
  | [] => 0
  | x :: xs => xs.foldl max x

/-- Channel.temporal_bounds (download_status.py:281-287). -/
def Channel.temporal_bounds (ch : Channel) : ℚ × ℚ :=
  (minQ (ch.intervals.map TimeInterval.start),
    maxQ (ch.intervals.map TimeInterval.end_))

/-- Channel.wants_station_information (download_status.py:266-279): true as
soon as one interval is DOWNLOADED or EXISTS. -/
def Channel.wants_station_information (ch : Channel) : Bool :=
  ch.intervals.any (fun iv =>
    iv.status == Status.downloaded || iv.status == Status.exists)

/-- Station.temporal_bounds (download_status.py:102-113). -/
def Station.temporal_bounds (st : Station) : ℚ × ℚ :=
  (minQ (st.channels.map (fun ch => ch.temporal_bounds.1)),
    maxQ (st.channels.map (fun ch => ch.temporal_bounds.2)))

/-- The rows of a parsed StationXML file matching one channel id
(download_status.py:182-186 and 469-473). -/
def matching_rows (info : List SXRow)
    (network station location channel : String) : List SXRow :=
  info.filter (fun row =>
    row.network == network && row.station == station &&
      row.location == location && row.channel == channel)

/-- The for-else loop of Station.prepare_stationxml_download
(download_status.py:180-198): true iff every wanted channel has rows in the
existing file whose merged range covers the wanted range (the loop breaks at
the first uncovered entry and the else-branch runs only without a break, so
only the all-covered / not-all-covered outcome is observable). -/
def file_covers_want (network station : String) (info : List SXRow)
    (want : InfoMap) : Bool :=
  want.all (fun wi =>
    let c_info := matching_rows info network station wi.1.1 wi.1.2
    !c_info.isEmpty &&
      !(decide (minQ (c_info.map SXRow.starttime) > wi.2.1) ||
        decide (maxQ (c_info.map SXRow.endtime) < wi.2.2)))

/-- Station.prepare_stationxml_download (download_status.py:141-205), for
the string-returning storage case (the dict-returning case raises
NotImplementedError).  The filename resolved by
utils.get_stationxml_filename is passed in; `fs` is the local disk. -/
def Station.prepare_stationxml_download (st : Station) (fs : FS)
    (filename : String) : Station :=
  let want := st.channels.foldl (fun acc ch =>
    if ch.wants_station_information then
      acc ++ [((ch.location, ch.channel), ch.temporal_bounds)]
    else acc) []
  let st1 := { st with want_station_information := want,
                       stationxml_filename := some filename }
  if fsExists fs filename = false then
    { st1 with miss_station_information := want,
               have_station_information := [] }
  else if file_covers_want st1.network st1.station
      (get_stationxml_contents fs filename) want then
    { st1 with have_station_information := want,
               miss_station_information := [] }
  else
    { st1 with miss_station_information := want,
               have_station_information := [] }

/-- The result-processing loop of ClientDownloadHelper.download_stationxml
(download_status.py:465-482), iterating miss_station_information with
accumulators for have_station_information additions and still_missing.  A
channel with NO rows in the freshly downloaded file hits `break` (line 475):
the breaking entry and every entry after it are added to NEITHER map.  A
channel whose rows do not cover the wanted range goes to still_missing; a
covered channel is added to have_station_information. -/
def miss_update_loop (network station : String) (info : List SXRow) :
    InfoMap → InfoMap → InfoMap → InfoMap × InfoMap
  | have_, still, [] => (have_, still)
  | have_, still, (c_id, times) :: rest =>
    let c_info := matching_rows info network station c_id.1 c_id.2
    if c_info.isEmpty then (have_, still)
    else if minQ (c_info.map SXRow.starttime) > times.1 ∨
        maxQ (c_info.map SXRow.endtime) < times.2 then
      miss_update_loop network station info have_
        (still ++ [(c_id, times)]) rest
    else
      miss_update_loop network station info (have_ ++ [(c_id, times)])
        still rest

/-- The per-station map update performed by download_stationxml after a
successful StationXML fetch (download_status.py:458-482): have gains the
covered entries, miss is replaced by still_missing. -/
def Station.update_station_information (st : Station) (info : List SXRow) :
    Station :=
  let res := miss_update_loop st.network st.station info
    st.have_station_information [] st.miss_station_information
  { st with have_station_information := res.1,
            miss_station_information := res.2 }

def ivDlA : TimeInterval :=
  { start := 0, end_ := 10, filename := some "a.mseed",
    status := Status.downloaded }

def ivDlB : TimeInterval :=
  { start := 0, end_ := 10, filename := some "b.mseed",
    status := Status.downloaded }

/-- A station wanting (and missing) metadata for two channels. -/
def staTwoMiss : Station :=
  { network := "NET", station := "STA", latitude := 0, longitude := 0,
    channels :=
      [{ location := "", channel := "AAA", intervals := [ivDlA] },
        { location := "", channel := "BHZ", intervals := [ivDlB] }],
    stationxml_filename := some "NET.STA.xml",
    want_station_information :=
      [(("", "AAA"), (0, 10)), (("", "BHZ"), (0, 10))],
    miss_station_information :=
      [(("", "AAA"), (0, 10)), (("", "BHZ"), (0, 10))],
    have_station_information := [] }

/-- A downloaded StationXML content with full coverage for ("", "BHZ") and
no rows at all for ("", "AAA"). -/
def infoBHZ : List SXRow :=
  [{ network := "NET", station := "STA", location := "", channel := "BHZ",
      starttime := 0, endtime := 20 }]

/-- C4: the claim states want_station_information stays the disjoint union
of have and miss after download_stationxml processes a result — covered
entries move to have, all others remain in miss, nothing is dropped from
both.  The `break` at download_status.py:475 refutes this: when the first
missing entry has no rows in the downloaded file, the loop stops and every
remaining entry — including ("", "BHZ"), which IS fully covered by the
file — ends up in neither have nor miss, leaving want ≠ have ∪ miss. -/
theorem C4_download_stationxml_break_drops_entries :
    staTwoMiss.want_station_information =
        [(("", "AAA"), (0, 10)), (("", "BHZ"), (0, 10))] ∧
    (Station.update_station_information staTwoMiss
        infoBHZ).want_station_information =
      staTwoMiss.want_station_information ∧
    (Station.update_station_information staTwoMiss
        infoBHZ).have_station_information = [] ∧
    (Station.update_station_information staTwoMiss
        infoBHZ).miss_station_information = [] ∧
    file_covers_want "NET" "STA" infoBHZ [(("", "BHZ"), (0, 10))] = true := by
  decide

/-! ### C6: priority filters vs literal identifier filters -/

/-- Modelled from the spec: glob matching for the priority lists (patterns
such as "HH[Z,N,E]"): `*` matches any sequence, `?` any single character,
`[...]` one character out of the bracketed set, anything else itself.  Fuel
bounds the recursion; every step shortens pattern+input, so
`fnmatch` supplies sufficient fuel. -/
def globMatchAux : ℕ → List Char → List Char → Bool
  | 0, _, _ => false
  | fuel + 1, pattern, s =>
    match pattern, s with
    | [], [] => true
    | [], _ :: _ => false
    | '*' :: ps, s =>
      globMatchAux fuel ps s ||
        (match s with
          | [] => false
          | _ :: s' => globMatchAux fuel ('*' :: ps) s')
    | '?' :: _, [] => false
    | '?' :: ps, _ :: s' => globMatchAux fuel ps s'
    | '[' :: _, [] => false
    | '[' :: ps, ch :: s' =>
      (ps.takeWhile (fun d => d ≠ ']')).contains ch &&
        globMatchAux fuel ((ps.dropWhile (fun d => d ≠ ']')).drop 1) s'
    | p :: _, [] => false ∧ p = p
    | p :: ps, ch :: s' => p == ch && globMatchAux fuel ps s'

/-- Modelled from the spec: pattern matching of one glob against one code. -/
def fnmatch (pattern s : String) : Bool :=
  globMatchAux (pattern.toList.length + s.toList.length + 1)
    pattern.toList s.toList

/-- Modelled from the spec: `utils.filter_channel_priority` (the utils
module is not under src/; spec §4.3 step 4 and the glossary entry "Priority
list").  An ordered list of glob patterns; the first pattern matching at
least one of the channels (on the attribute selected by `key`) keeps
exactly the matching channels; when no pattern matches anything, nothing is
kept. -/
def filter_channel_priority (channels : List Channel)
    (key : Channel → String) (priorities : List String) : List Channel :=
  match priorities with
  | [] => []
  | p :: rest =>
    let matching := channels.filter (fun ch => fnmatch p (key ch))
    if matching.isEmpty then filter_channel_priority channels key rest
    else matching

/-- One channel of a provider inventory response: declared operating epoch
and, when the service supports includeavailability, the availability
sub-element. -/
structure InvChannel where
  location_code : String
  code : String
  start_date : ℚ
  end_date : ℚ
  data_availability : Option (ℚ × ℚ)
deriving DecidableEq, Repr

structure InvStation where
  code : String
  latitude : ℚ
  longitude : ℚ
  channels : List InvChannel
deriving DecidableEq, Repr

structure InvNetwork where
  code : String
  stations : List InvStation
deriving DecidableEq, Repr

/-- String comparison used by `sorted(channels, key=lambda x: x.location)`. -/
def strLe (a b : String) : Bool := !(compare a b == Ordering.gt)

def insertByLocation (x : Channel) : List Channel → List Channel
  | [] => [x]
  | y :: ys =>
    if strLe x.location y.location then x :: y :: ys
    else y :: insertByLocation x ys

/-- Stable sort of channels by location code. -/
def sortByLocation : List Channel → List Channel
  | [] => []
  | x :: xs => insertByLocation x (sortByLocation xs)

/-- itertools.groupby over the sorted list: one group per run of equal
location codes. -/
def groupByLocation : List Channel → List (List Channel)
  | [] => []
  | ch :: rest =>
    match groupByLocation rest with
    | [] => [[ch]]
    | [] :: gs => [ch] :: gs
    | (c2 :: g) :: gs =>
      if ch.location == c2.location then (ch :: c2 :: g) :: gs
      else [ch] :: (c2 :: g) :: gs

/-- The per-station channel filtering of get_availability
(download_status.py:840-882): drop channels whose declared epoch does not
cover [starttime, endtime], check the availability sub-element when
includeavailability was requested (channels without one are dropped with a
warning), then group by location and apply the channel-priority filter per
group, then the location-priority filter over the survivors.  Both priority
filters run UNCONDITIONALLY: restrictions.channel / restrictions.location
only feed the server-side query arguments and are never consulted here. -/
def availability_station_channels (r : Restrictions)
    (includeavailability : Bool) (intervals : List TimeInterval)
    (sta : InvStation) : List Channel :=
  let channels := sta.channels.foldl (fun acc c =>
    if c.start_date > r.starttime ∨ c.end_date < r.endtime then acc
    else if includeavailability then
      match c.data_availability with
      | Option.none => acc
      | some da =>
        if da.1 > r.starttime ∨ da.2 < r.endtime then acc
        else acc ++ [{ location := c.location_code, channel := c.code,
                       intervals := intervals }]
    else acc ++ [{ location := c.location_code, channel := c.code,
                   intervals := intervals }]) []
  let filtered := (groupByLocation (sortByLocation channels)).foldl
    (fun acc grp =>
      acc ++ filter_channel_priority grp (fun ch => ch.channel)
        r.channel_priorities) []
  filter_channel_priority filtered (fun ch => ch.location)
    r.location_priorities

/-- The inventory-processing tail of get_availability (download_status.py:
829-895) after a successful get_stations RPC: build the chunk intervals,
drop stations outside the domain (when the domain implements a membership
test), filter each station with `availability_station_channels`, and
install surviving stations keyed by (network, station). -/
def get_availability_stations (r : Restrictions)
    (includeavailability : Bool) (is_in_domain : Option (ℚ → ℚ → Bool))
    (inv : List InvNetwork) : StationsMap :=
  let intervals := (Restrictions.iter r).map
    (fun p => ({ start := p.1, end_ := p.2, filename := Option.none,
                 status := Status.none } : TimeInterval))
  inv.foldl (fun acc network =>
    network.stations.foldl (fun acc station =>
      if (match is_in_domain with
          | some f => !f station.latitude station.longitude
          | Option.none => false) then acc
      else
        let channels := availability_station_channels r
          includeavailability intervals station
        if channels.isEmpty then acc
        else acc ++ [((network.code, station.code),
          { network := network.code, station := station.code,
            latitude := station.latitude, longitude := station.longitude,
            channels := channels, stationxml_filename := Option.none,
            want_station_information := [],
            miss_station_information := [],
            have_station_information := [] })]) acc) []

/-- Restrictions with a literal (wildcard-free) channel filter "SHZ" and
the default priority lists. -/
def rLiteral : Restrictions :=
  { rChunk with chunklength := Option.none, channel := some "SHZ" }

/-- The provider offers exactly the requested SHZ channel, fully covering
the requested epoch. -/
def chanSHZ : InvChannel :=
  { location_code := "", code := "SHZ", start_date := 0, end_date := 10,
    data_availability := Option.none }

def staSHZ : InvStation :=
  { code := "STA", latitude := 0, longitude := 0, channels := [chanSHZ] }

def invSHZ : List InvNetwork := [{ code := "NET", stations := [staSHZ] }]

/-- C6: the claim states that a literal (non-wildcard) channel filter in
Restrictions suppresses the channel_priorities filter (and likewise for
locations).  In the code the priority filters run unconditionally: with
channel = "SHZ" (wildcard-free) the provider returns the SHZ channel, none
of the default priority patterns ("HH/BH/MH/EH/LH[Z,N,E]") matches it, so
the filter deletes every channel and the station is dropped entirely —
get_availability installs no station although the requested channel was
offered and in epoch. -/
theorem C6_channel_priorities_applied_despite_literal_filter :
    rLiteral.channel = some "SHZ" ∧
    ("SHZ".toList.all (fun ch => ch ≠ '*' ∧ ch ≠ '?' ∧ ch ≠ '[') = true) ∧
    staSHZ.channels = [chanSHZ] ∧ chanSHZ.code = "SHZ" ∧
    chanSHZ.start_date ≤ rLiteral.starttime ∧
    rLiteral.endtime ≤ chanSHZ.end_date ∧
    get_availability_stations rLiteral false Option.none invSHZ = [] := by
  refine ⟨rfl, by decide, rfl, rfl, by decide, by decide, by decide⟩

/-! ### The cross-provider driver (DownloadHelper.download) -/

/-- Result of the waveform-storage resolver utils.get_mseed_filename for
one interval: the Python function returns `True` (ignore this interval) or
a path. -/
inductive MseedPathResult
  | ignore
  | path (p : String)
deriving DecidableEq, Repr

/-- Station.prepare_mseed_download (download_status.py:207-232): distribute
filenames and statuses IGNORE / EXISTS / NEEDS_DOWNLOADING.  The resolver
is a function of (network, station, location, channel, start, end);
directory creation has no observable effect here.  The Python code stores
the `True` sentinel in `interval.filename` for ignored intervals, modelled
as `none`. -/
def Station.prepare_mseed_download (st : Station)
    (get_mseed_filename :
      String → String → String → String → ℚ → ℚ → MseedPathResult)
    (fs : FS) : Station :=
  { st with channels := st.channels.map (fun ch =>
      { ch with intervals := ch.intervals.map (fun iv =>
          match get_mseed_filename st.network st.station ch.location
              ch.channel iv.start iv.end_ with
          | MseedPathResult.ignore =>
            { iv with filename := Option.none, status := Status.ignore }
          | MseedPathResult.path p =>
            if fsExists fs p then
              { iv with filename := some p, status := Status.exists }
            else
              { iv with filename := some p,
                        status := Status.needs_downloading }) }) }

/-- Files written by an RPC land on disk, shadowing earlier content. -/
def fsWrite (fs : FS) (writes : FS) : FS := writes ++ fs

/-- ClientDownloadHelper.download_mseed (download_status.py:491-607) with
the network abstracted: chunk packing and the worker pool only decide which
bulk requests are issued, and their observable effect is the set of files
written, supplied as `writes`.  When no interval needs downloading, no
chunks are built and the method returns before QC (lines 554-555);
otherwise the written files land on disk and _check_downloaded_data runs.
A crash inside QC (the gap-branch TypeError) propagates. -/
def download_mseed (r : Restrictions) (sm : StationsMap) (writes : FS)
    (fs : FS) : Except String (StationsMap × FS × ℕ × ℕ) :=
  let needs := sm.any (fun p => p.2.channels.any (fun ch =>
    ch.intervals.any (fun iv => iv.status == Status.needs_downloading)))
  if needs = false then .ok (sm, fs, 0, 0)
  else
    let res := check_downloaded_data r sm (fsWrite fs writes)
    if res.2.2.2.2 then
      .error "TypeError: object of type type has no len()"
    else .ok (res.1, res.2.1, res.2.2.1, res.2.2.2.1)

/-- ClientDownloadHelper.download_stationxml (download_status.py:410-489)
with the network abstracted: a request is built for every station with
non-empty miss_station_information; `sx_writes` holds the files those
requests manage to write (a station whose planned filename is absent models
a failed request, filtered out at line 453).  Every successful result is
parsed and the station maps updated via the (break-afflicted) loop of lines
465-482. -/
def download_stationxml (sm : StationsMap) (sx_writes : FS) (fs : FS) :
    StationsMap × FS :=
  let fs' := fsWrite fs (sx_writes.filter (fun w =>
    sm.any (fun p => !p.2.miss_station_information.isEmpty &&
      p.2.stationxml_filename == some w.1)))
  (sm.map (fun p =>
    if p.2.miss_station_information.isEmpty then p
    else
      match p.2.stationxml_filename with
      | Option.none => p
      | some fn =>
        if (sx_writes.lookup fn).isSome then
          (p.1, p.2.update_station_information
            (get_stationxml_contents fs' fn))
        else p), fs')

/-- ClientDownloadHelper.discard_stations (download_status.py:739-750):
delete the given (network, station) keys when present. -/
def discard_stations (sm : StationsMap) (ids : List (String × String)) :
    StationsMap :=
  sm.filter (fun p => !ids.contains p.1)

/-- The inputs of one provider in a DownloadHelper.download run: the
provider name, the stations its availability query installs (the output of
get_availability on its inventory) and the files its two RPC stages manage
to write. -/
structure ProviderInput where
  client_name : String
  availability : StationsMap
  mseed_writes : FS
  sx_writes : FS
deriving DecidableEq, Repr

/-- One report entry: `{"client": name, "data": data}`
(download_helpers.py:270, 284). -/
structure ReportEntry where
  client : String
  data : StationsMap
deriving DecidableEq, Repr

/-- The two storage resolvers of a run. -/
structure StorageConfig where
  get_mseed_filename :
    String → String → String → String → ℚ → ℚ → MseedPathResult
  get_stationxml_filename : String → String → String

/-- The provider loop of DownloadHelper.download
(download_helpers.py:254-323).  Per provider: get_availability (its result
comes with the ProviderInput), the two early exits that append
`{"client": name, "data": []}` to the report when the helper is empty,
discard_stations with existing ∪ discarded, then — the interstation-
distance filter of lines 287-308 being commented out — prepare/download
mseed, prepare/download stationxml and sanitize_downloads.  Neither
existing_stations nor discarded_station_ids is ever added to anywhere in
the body, and after the download phases nothing is appended to the report.
A phase exception propagates out of download().  Besides the report the
model carries the bookkeeping sets, the filesystem, and each processed
provider helper final state (the per-iteration `helper` object). -/
def download_loop (cfg : StorageConfig) (r : Restrictions) :
    List ProviderInput → List (String × String) → List (String × String) →
      List ReportEntry → FS → List (String × StationsMap) →
      Except String
        (List ReportEntry × List (String × String) ×
          List (String × String) × FS × List (String × StationsMap))
  | [], existing, discarded, report, fs, helpers =>
    .ok (report, existing, discarded, fs, helpers)
  | p :: rest, existing, discarded, report, fs, helpers =>
    if p.availability.isEmpty then
      download_loop cfg r rest existing discarded
        (report ++ [{ client := p.client_name, data := [] }]) fs helpers
    else
      let sm1 := discard_stations p.availability (existing ++ discarded)
      if sm1.isEmpty then
        download_loop cfg r rest existing discarded
          (report ++ [{ client := p.client_name, data := [] }]) fs helpers
      else
        let sm2 := sm1.map (fun q =>
          (q.1, q.2.prepare_mseed_download cfg.get_mseed_filename fs))
        match download_mseed r sm2 p.mseed_writes fs with
        | .error e => .error e
        | .ok (sm3, fs1, _db, _dc) =>
          let sm4 := sm3.map (fun q =>
            (q.1, q.2.prepare_stationxml_download fs1
              (cfg.get_stationxml_filename q.2.network q.2.station)))
          let res := download_stationxml sm4 p.sx_writes fs1
          match sanitize_downloads res.1 res.2 with
          | .error e => .error e
          | .ok (sm5, fs2) =>
            download_loop cfg r rest existing discarded report fs2
              (helpers ++ [(p.client_name, sm5)])

/-- DownloadHelper.download (download_helpers.py:227-323): run the provider
loop with empty existing_stations, discarded_station_ids and report. -/
def download (cfg : StorageConfig) (r : Restrictions)
    (providers : List ProviderInput) (fs : FS) :
    Except String
      (List ReportEntry × List (String × String) ×
        List (String × String) × FS × List (String × StationsMap)) :=
  download_loop cfg r providers [] [] [] fs []

/-! ### Concrete two-provider run for the driver claims -/

/-- Path-template storage resolvers. -/
def cfgRun : StorageConfig :=
  { get_mseed_filename := fun network station location channel _ _ =>
      MseedPathResult.path
        (network ++ "." ++ station ++ "." ++ location ++ "." ++ channel
          ++ ".mseed")
    get_stationxml_filename := fun network station =>
      network ++ "." ++ station ++ ".xml" }

/-- Run restrictions: range [0, 10), no chunking, minimum_length 0 (falsy,
so QC keeps any parseable gap-free file). -/
def rRun : Restrictions :=
  { rChunk with chunklength := Option.none, minimum_length := 0 }

/-- The blank interval get_availability installs for the range [0, 10). -/
def ivNone : TimeInterval :=
  { start := 0, end_ := 10, filename := Option.none, status := Status.none }

def chRun : Channel :=
  { location := "", channel := "LHZ", intervals := [ivNone] }

/-- A one-channel station as installed by get_availability. -/
def mkRunStation (network station : String) (lat lon : ℚ) : Station :=
  { network := network, station := station, latitude := lat,
    longitude := lon, channels := [chRun],
    stationxml_filename := Option.none, want_station_information := [],
    miss_station_information := [], have_station_information := [] }

/-- A healthy downloaded waveform file: 100 bytes, one trace covering the
whole interval. -/
def wfFile : DiskFile :=
  { size := 100,
    data := FileData.waveform
      (ReadResult.stream [{ starttime := 0, endtime := 10 }]) }

/-- A StationXML file fully covering the ("", "LHZ") channel. -/
def sxFile (network station : String) : DiskFile :=
  { size := 10,
    data := FileData.stationxml
      [{ network := network, station := station, location := "",
         channel := "LHZ", starttime := 0, endtime := 20 }] }

/-- Provider "A" offers station N1.S1 at (0, 0); both its RPCs succeed. -/
def provA : ProviderInput :=
  { client_name := "A",
    availability := [(("N1", "S1"), mkRunStation "N1" "S1" 0 0)],
    mseed_writes := [("N1.S1..LHZ.mseed", wfFile)],
    sx_writes := [("N1.S1.xml", sxFile "N1" "S1")] }

/-- Provider "B" offers the differently-named station N1.S2 at the very
same coordinates (0, 0) — inter-station distance 0 m. -/
def provB : ProviderInput :=
  { client_name := "B",
    availability := [(("N1", "S2"), mkRunStation "N1" "S2" 0 0)],
    mseed_writes := [("N1.S2..LHZ.mseed", wfFile)],
    sx_writes := [("N1.S2.xml", sxFile "N1" "S2")] }

/-- A provider whose availability query returns nothing. -/
def provEmpty : ProviderInput :=
  { client_name := "E", availability := [], mseed_writes := [],
    sx_writes := [] }

/-- C3: the claim states that a later provider candidate closer than
min_interstation_distance_m (1000 m) to an already accepted station is
moved into the discarded set before any waveform download.  The distance
filter (download_helpers.py:287-308) is commented out and neither
existing_stations nor discarded_station_ids is ever populated: with
provider B offering a station at distance 0 m from provider A's accepted
station, the run ends with an empty discarded set and B's station fully
downloaded. -/
theorem C3_interstation_distance_filter_never_runs :
    rRun.minimum_interstation_distance_in_m = 1000 ∧
    (mkRunStation "N1" "S1" 0 0).latitude =
        (mkRunStation "N1" "S2" 0 0).latitude ∧
    (mkRunStation "N1" "S1" 0 0).longitude =
        (mkRunStation "N1" "S2" 0 0).longitude ∧
    (("N1", "S2") : String × String) ≠ ("N1", "S1") ∧
    (download cfgRun rRun [provA, provB] []).toOption.map
        (fun res =>
          (res.2.2.1,
            res.2.2.2.2.map (fun h => (h.1, h.2.map (fun q =>
              (q.1, q.2.channels.map (fun ch =>
                ch.intervals.map TimeInterval.status))))))) =
      some ([],
        [("A", [(("N1", "S1"), [[Status.downloaded]])]),
          ("B", [(("N1", "S2"), [[Status.downloaded]])])]) := by
  refine ⟨by decide, rfl, rfl, by decide, by rfl⟩

/-- C5: the claim states the returned report carries one entry per
processed provider, also for providers that completed the download phases.
In the code `report.append` only occurs in the two empty-helper branches
(download_helpers.py:270, 284): provider "A" completes all phases (its
helper retains a fully downloaded station) yet the returned report contains
only the entry of the availability-empty provider "E". -/
theorem C5_report_skips_completed_providers :
    (download cfgRun rRun [provA, provEmpty] []).toOption.map
        (fun res => (res.1, res.2.2.2.2.map Prod.fst)) =
      some ([{ client := "E", data := [] }], ["A"]) := by
  decide

end Obspy
